import Mathlib

/-!
# Shallow embedding of `zofan/go-resolver` (`resolver.go`)

This file embeds the core of the Go package `resolver` — the server pool with
health-based failover (`GetServer`, `disableServer`, `restoreServers`), the
retry-driven lookup orchestrator (`lookup`), and the bounded TTL host cache
(`ResolveHost`, `clearCache`) — and proves properties of the embedding.

Modelling conventions:
* `*Server` pointers are modelled as indices (`Nat`) into a heap
  (`ResolverState.heap`); pointer equality is index equality, and mutation of
  a `Server` field is an update of the heap cell.
* Go slices of pointers (`r.servers`, `r.badServers`) are `List Nat` of heap
  indices.  For `restoreServers`, which mutates `r.badServers` while ranging
  over it, the backing array is modelled explicitly (see `restoreLoop`).
* `time.Time` / `time.Duration` values are `Int` (Unix nanoseconds); each call
  of `time.Now()` inside a loop is a parameter indexed by the attempt number.
* `uint32` arithmetic (`Fails`, `lastNS`) is `Nat` with `% 2^32` exactly where
  the Go code performs arithmetic (`server.Fails++`, `r.lastNS++`).
* The Go map `r.cache` is an association list with unique keys; Go's
  unspecified map iteration order is modelled by list order (the "delete one
  arbitrary key" step of `clearCache` deletes the head).
* A runtime panic (slice index out of range) is `Option.none` / the
  `RunResult.panic` constructor; Go functions that cannot panic return plain
  values.
* The DNS query executor (`fn` / `net.Resolver`) is external: its outcome at
  each attempt is a parameter (`Env.outcomes`), classified exactly as the Go
  code does (`IsNotFound` / `nil` / other).
-/

namespace GoResolver

/-- `2^32`, the modulus of Go's `uint32` arithmetic. -/
def u32 : Nat := 4294967296

/-- The fields of a Go `Server` object (`Addr`, `Fails uint32`, `LastUsage`). -/
structure ServerData where
  addr : String
  fails : Nat
  lastUsage : Int
  deriving Repr, DecidableEq

/-- A `cacheHost` value: resolved addresses and the `lastHit` timestamp. -/
structure CacheEntry where
  addr : List String
  lastHit : Int
  deriving Repr, DecidableEq

/-- The state of a `Resolver`: the server heap, the `servers` / `badServers`
slices (as heap indices), the rotation cursor `lastNS`, the configuration
knobs used by the embedded functions, and the cache. -/
structure ResolverState where
  heap : List ServerData
  servers : List Nat
  badServers : List Nat
  lastNS : Nat
  maxFails : Nat
  mode : Int
  retryLimit : Int
  cacheLimit : Int
  cacheLife : Int
  restoreTime : Int
  cache : List (String × CacheEntry)
  deriving Repr, DecidableEq

/-- `ModeRandom SelectMode = 1` -/
def modeRandom : Int := 1
/-- `ModeRotate SelectMode = 2` -/
def modeRotate : Int := 2
/-- `ModeTime SelectMode = 3` -/
def modeTime : Int := 3

/-- The error values of the package. -/
inductive Err where
  | serverListEmpty
  | badMode
  | retryLimit
  | noSuchHost
  deriving Repr, DecidableEq

/-- Read a server's `Fails` field through its heap index. -/
def getFails (st : ResolverState) (id : Nat) : Nat :=
  (st.heap.getD id ⟨"", 0, 0⟩).fails

/-- Mutate the `Server` object at a heap index (a no-op on a dangling index,
which cannot arise from the embedded operations). -/
def updSrv (st : ResolverState) (id : Nat) (g : ServerData → ServerData) :
    ResolverState :=
  match st.heap.get? id with
  | some d => { st with heap := st.heap.set id (g d) }
  | none => st

/-- Write a server's `Fails` field through its heap index. -/
def setFails (st : ResolverState) (id : Nat) (f : Nat) : ResolverState :=
  updSrv st id (fun d => { d with fails := f })

/-- Write a server's `LastUsage` field through its heap index. -/
def setLastUsage (st : ResolverState) (id : Nat) (t : Int) : ResolverState :=
  updSrv st id (fun d => { d with lastUsage := t })

/-- `GetServer`: fails with `ErrServerListEmpty` on an empty `servers` slice,
otherwise dispatches on `r.Mode` (`ModeTime`, `ModeRandom`, `ModeRotate`,
default `ErrBadMode`).  `unixNow` stands for `time.Now().Unix()`, `randVal`
parameterizes `rand.Intn(len)` (used modulo the length).  `none` is an index
out-of-range panic. -/
def getServer (st : ResolverState) (unixNow : Int) (randVal : Nat) :
    Option (Except Err (Nat × ResolverState)) :=
  if st.servers.length = 0 then
    some (Except.error Err.serverListEmpty)
  else if st.mode = modeTime then
    let i : Int := unixNow.tmod (st.servers.length : Int)
    if i < 0 then none
    else
      match st.servers.get? i.toNat with
      | some id => some (Except.ok (id, st))
      | none => none
  else if st.mode = modeRandom then
    match st.servers.get? (randVal % st.servers.length) with
    | some id => some (Except.ok (id, st))
    | none => none
  else if st.mode = modeRotate then
    match st.servers.get? st.lastNS with
    | some id =>
      let n1 := (st.lastNS + 1) % u32
      let n2 := if st.servers.length - 1 < n1 then 0 else n1
      some (Except.ok (id, { st with lastNS := n2 }))
    | none => none
  else
    some (Except.error Err.badMode)

/-- `disableServer`: finds `server` in `r.servers` by pointer equality,
swap-removes it (`r.servers[i] = r.servers[len-1]; r.servers = r.servers[:len-1]`),
appends it to `r.badServers` and resets `r.lastNS` to 0; `break` after the
first match; no-op when the server is not in the active slice. -/
def disableServer (st : ResolverState) (id : Nat) : ResolverState :=
  match st.servers.findIdx? (fun s => s == id) with
  | none => st
  | some i =>
    let removed :=
      (st.servers.set i (st.servers.getD (st.servers.length - 1) 0)).take
        (st.servers.length - 1)
    { st with servers := removed, badServers := st.badServers ++ [id], lastNS := 0 }

/-- The body of `restoreServers`'s `for i, s := range r.badServers` loop.
Go evaluates the range expression once, so the loop runs over the *original*
slice header (length `rem + i` counts down via `rem`), while reads `arr[i]`
and the writes of the swap-remove go through the shared backing array `arr`;
`badLen` is the current length of `r.badServers`.  Writing `r.badServers[i]`
with `i ≥ badLen` (or reading `r.badServers[badLen-1]` with `badLen = 0`)
is an index out-of-range panic, modelled as `none`. -/
def restoreLoop (now : Int) :
    Nat → Nat → List Nat → Nat → ResolverState → Option ResolverState
  | 0, _, arr, badLen, st => some { st with badServers := arr.take badLen }
  | rem + 1, i, arr, badLen, st =>
    let s := arr.getD i 0
    let d := st.heap.getD s ⟨"", 0, 0⟩
    if st.restoreTime < now - d.lastUsage then
      if i < badLen then
        let arr2 := arr.set i (arr.getD (badLen - 1) 0)
        let st2 := { st with servers := st.servers ++ [s],
                             heap := st.heap.set s { d with fails := 0 } }
        restoreLoop now rem (i + 1) arr2 (badLen - 1) st2
      else none
    else
      restoreLoop now rem (i + 1) arr badLen st

/-- `restoreServers`: for each index of the originally captured
`r.badServers`, if `time.Since(s.LastUsage) > r.RestoreTime`, swap-remove the
entry, append `s` to `r.servers`, and set `s.Fails = 0`. -/
def restoreServers (now : Int) (st : ResolverState) : Option ResolverState :=
  restoreLoop now st.badServers.length 0 st.badServers st.badServers.length st

/-- `AddServer`: appends a freshly allocated `Server` to `r.servers` when the
address is a valid global-unicast IP.  IP parsing (`net.ParseIP` /
`IsGlobalUnicast`) is an external collaborator; its verdict is the `valid`
flag.  The fresh pointer is the next heap index; `Fails` and `LastUsage`
start at their Go zero values. -/
def addServer (st : ResolverState) (addr : String) (valid : Bool) : ResolverState :=
  if valid then
    { st with heap := st.heap ++ [⟨addr, 0, 0⟩],
              servers := st.servers ++ [st.heap.length] }
  else st

/-- `LoadFromReader`: resets `r.servers`, `r.badServers` and `r.lastNS`, then
`AddServer`s each scanned line (each paired with its external validation
verdict). -/
def loadFromReader (st : ResolverState) (lines : List (String × Bool)) : ResolverState :=
  let st0 := { st with servers := [], badServers := [], lastNS := 0 }
  lines.foldl (fun s l => addServer s l.1 l.2) st0

/-- Look a host up in the cache map (`v, ok := r.cache[host]`). -/
def cacheFind (cache : List (String × CacheEntry)) (host : String) : Option CacheEntry :=
  (cache.find? (fun p => p.1 == host)).map Prod.snd

/-- `r.cache[host] = e`: overwrite in place when the key is present,
otherwise add the binding. -/
def cacheInsert : List (String × CacheEntry) → String → CacheEntry →
    List (String × CacheEntry)
  | [], host, e => [(host, e)]
  | p :: t, host, e =>
    if p.1 = host then (host, e) :: t else p :: cacheInsert t host e

/-- `clearCache`: delete every entry with `now.Sub(c.lastHit) >= r.CacheLife`;
then, if `len(r.cache) >= r.CacheLimit` still, delete one arbitrary key
(Go map order modelled by list order: the head). -/
def clearCache (now : Int) (st : ResolverState) : ResolverState :=
  let c1 := st.cache.filter (fun e => now - e.2.lastHit < st.cacheLife)
  let c2 := if st.cacheLimit ≤ (c1.length : Int) then c1.drop 1 else c1
  { st with cache := c2 }

/-- The classification the Go code applies to the executor's error at one
attempt: `*net.DNSError` with `IsNotFound`, `nil`, or any other error. -/
inductive QueryOutcome where
  | success
  | notFound
  | failure
  deriving Repr, DecidableEq

/-- The external world of one lookup call, indexed by the attempt counter:
the executor's classified outcome, the addresses it returned on success
(`nil` on error), `time.Now()` and the random draw at that attempt. -/
structure Env where
  outcomes : Nat → QueryOutcome
  results : Nat → List String
  times : Nat → Int
  rands : Nat → Nat

/-- What a terminated lookup / resolve call produced: the returned error
(`none` = `nil`), the final resolver state, the value the caller's `result`
variable holds, and how many `GetServer` selections were made. -/
structure LookupOut where
  err : Option Err
  state : ResolverState
  result : List String
  selections : Nat
  deriving Repr, DecidableEq

/-- A call either returns, panics, or (fuel exhausted) is still looping. -/
inductive RunResult where
  | done (out : LookupOut)
  | panic
  | fuelOut
  deriving Repr, DecidableEq

/-- The body of `lookup`'s retry loop, one recursive step per iteration.
Per attempt: `GetServer` (propagating its error / panic), set
`server.LastUsage = time.Now()`, run the executor, then classify:
not-found resets `Fails` and returns `ErrNoSuchHost`; success resets `Fails`
and breaks (the function's outer `err` is still `nil`); any other failure
either calls `disableServer` (when `server.Fails > r.MaxFails`, checked
*before* incrementing) or increments `Fails` (uint32).  After a failure,
return `ErrRetryLimit` when `r.RetryLimit > 0 && attempts >= r.RetryLimit`,
else increment `attempts` and loop (`time.Sleep` is timing-only and
not modelled).  `result` is the caller's closure variable, overwritten by
every executor call (`nil` on error). -/
def lookupLoop (env : Env) :
    Nat → Nat → Nat → List String → ResolverState → RunResult
  | 0, _, _, _, _ => RunResult.fuelOut
  | fuel + 1, attempts, sel, result, st =>
    match getServer st (env.times attempts) (env.rands attempts) with
    | none => RunResult.panic
    | some (Except.error e) => RunResult.done ⟨some e, st, result, sel⟩
    | some (Except.ok (sid, st1)) =>
      let st2 := setLastUsage st1 sid (env.times attempts)
      match env.outcomes attempts with
      | QueryOutcome.notFound =>
        RunResult.done ⟨some Err.noSuchHost, setFails st2 sid 0, [], sel + 1⟩
      | QueryOutcome.success =>
        RunResult.done ⟨none, setFails st2 sid 0, env.results attempts, sel + 1⟩
      | QueryOutcome.failure =>
        let st3 :=
          if st2.maxFails < getFails st2 sid then disableServer st2 sid
          else setFails st2 sid ((getFails st2 sid + 1) % u32)
        if 0 < st.retryLimit ∧ st.retryLimit ≤ (attempts : Int) then
          RunResult.done ⟨some Err.retryLimit, st3, [], sel + 1⟩
        else
          lookupLoop env fuel (attempts + 1) (sel + 1) [] st3

/-- `lookup` (as specialized by `ResolveHost`'s closure): the retry loop with
`attempts := 1`, no selection yet, and the `result` variable at its zero
value. -/
def lookupGo (env : Env) (fuel : Nat) (st : ResolverState) : RunResult :=
  lookupLoop env fuel 1 0 [] st

/-- `ResolveHost`: on a cache hit with `r.CacheLimit > 0`, return the cached
addresses with a `nil` error and no lookup.  NOTE (faithful to the Go code):
the hit path executes `v.lastHit = time.Now()` on the *copy* `v` of the map
value, so the stored entry's `lastHit` is unchanged — the state returned by
the hit path is the input state.  On a miss, run `lookup`; afterwards, when
`r.CacheLimit > 0`, run `clearCache` if `len(r.cache) > r.CacheLimit-1`,
then store `cacheHost{addr: result, lastHit: time.Now()}` (`nowIns`)
unconditionally — also when `lookup` returned an error. -/
def resolveHost (env : Env) (fuel : Nat) (st : ResolverState) (host : String)
    (nowIns : Int) : RunResult :=
  match cacheFind st.cache host with
  | some v =>
    if 0 < st.cacheLimit then
      RunResult.done ⟨none, st, v.addr, 0⟩
    else
      resolveHostMiss env fuel st host nowIns
  | none => resolveHostMiss env fuel st host nowIns
where
  /-- The part of `ResolveHost` below the cache check. -/
  resolveHostMiss (env : Env) (fuel : Nat) (st : ResolverState) (host : String)
      (nowIns : Int) : RunResult :=
    match lookupGo env fuel st with
    | RunResult.panic => RunResult.panic
    | RunResult.fuelOut => RunResult.fuelOut
    | RunResult.done out =>
      let st1 := out.state
      if 0 < st1.cacheLimit then
        let st2 :=
          if st1.cacheLimit - 1 < (st1.cache.length : Int) then clearCache nowIns st1
          else st1
        let st3 := { st2 with cache := cacheInsert st2.cache host ⟨out.result, nowIns⟩ }
        RunResult.done ⟨out.err, st3, out.result, out.selections⟩
      else RunResult.done out

/-- The cursor invariant of the pool (spec §3): whenever `active` is
non-empty the rotation cursor is a valid index into it; the code keeps the
cursor at 0 while the pool is empty. -/
def cursorInv (st : ResolverState) : Prop :=
  (st.servers = [] ∧ st.lastNS = 0) ∨ st.lastNS < st.servers.length

instance (st : ResolverState) : Decidable (cursorInv st) := by
  unfold cursorInv; infer_instance

/-- The outcomes of `n` consecutive `GetServer` calls: `some id` when a
server is returned, `none` on an error or panic (the state is then left as
is, matching the Go call sites which stop using the pool on error). -/
def selectList (u : Int) (rv : Nat) : Nat → ResolverState → List (Option Nat)
  | 0, _ => []
  | n + 1, st =>
    match getServer st u rv with
    | some (Except.ok (id, st1)) => some id :: selectList u rv n st1
    | _ => none :: selectList u rv n st

/-- An external world in which every executor call fails transiently. -/
def envAllFail : Env :=
  ⟨fun _ => QueryOutcome.failure, fun _ => [], fun _ => 7, fun _ => 0⟩

/-- An external world in which every executor call reports name-not-found. -/
def envAllNotFound : Env :=
  ⟨fun _ => QueryOutcome.notFound, fun _ => ["9.9.9.9"], fun _ => 7, fun _ => 0⟩

/-- A resolver with one cached host (`"h"`, inserted at time 0), one active
server, `CacheLife = 20`, `CacheLimit = 1`, rotate mode. -/
def exStCached : ResolverState :=
  ⟨[⟨"8.8.8.8", 0, 0⟩], [0], [], 0, 30, 2, 5, 1, 20, 10,
    [("h", ⟨["1.2.3.4"], 0⟩)]⟩

/-- A resolver whose two quarantined servers are both eligible for restore
at time 100 (`LastUsage = 0`, `RestoreTime = 10`). -/
def exStTwoEligible : ResolverState :=
  ⟨[⟨"1.0.0.1", 5, 0⟩, ⟨"1.0.0.2", 6, 0⟩], [], [0, 1], 0, 30, 2, 5, 0, 0, 10, []⟩

/-- A resolver whose three quarantined servers are all eligible for restore
at time 100. -/
def exStThreeEligible : ResolverState :=
  ⟨[⟨"1.0.0.1", 5, 0⟩, ⟨"1.0.0.2", 6, 0⟩, ⟨"1.0.0.3", 7, 0⟩],
    [], [0, 1, 2], 0, 30, 2, 5, 0, 0, 10, []⟩

/-- A resolver with one active server at 0 consecutive failures,
`MaxFails = 0` and `RetryLimit = 1`, rotate mode. -/
def exStThreshold : ResolverState :=
  ⟨[⟨"8.8.8.8", 0, 0⟩], [0], [], 0, 0, 2, 1, 0, 0, 10, []⟩

/-- A resolver with two active servers, rotation cursor at 1, and one
quarantined server eligible for restore at time 100. -/
def exStCursorOne : ResolverState :=
  ⟨[⟨"1.0.0.1", 0, 50⟩, ⟨"1.0.0.2", 0, 50⟩, ⟨"1.0.0.3", 3, 0⟩],
    [0, 1], [2], 1, 30, 2, 5, 0, 0, 10, []⟩

/-- A resolver with three active servers, cursor 0, rotate mode. -/
def exStRotate : ResolverState :=
  ⟨[⟨"1.0.0.1", 0, 0⟩, ⟨"1.0.0.2", 0, 0⟩, ⟨"1.0.0.3", 0, 0⟩],
    [0, 1, 2], [], 0, 30, 2, 5, 0, 0, 10, []⟩

/-- A resolver with an empty active pool and an unrecognized mode (99). -/
def exStEmptyBadMode : ResolverState :=
  ⟨[], [], [], 0, 30, 99, 5, 0, 0, 10, []⟩

/-- A resolver with one active server and an unrecognized mode (99). -/
def exStBadMode : ResolverState :=
  ⟨[⟨"8.8.8.8", 0, 0⟩], [0], [], 0, 30, 99, 5, 0, 0, 10, []⟩

/-- A resolver with an empty cache, `CacheLimit = 5`, `RetryLimit = 1`, one
active server, rotate mode. -/
def exStEmptyCache : ResolverState :=
  ⟨[⟨"8.8.8.8", 0, 0⟩], [0], [], 0, 30, 2, 1, 5, 20, 10, []⟩

/-- `exStRotate` with the retry limit set to 2. -/
def exStRetry2 : ResolverState :=
  ⟨[⟨"1.0.0.1", 0, 0⟩, ⟨"1.0.0.2", 0, 0⟩, ⟨"1.0.0.3", 0, 0⟩],
    [0, 1, 2], [], 0, 30, 2, 2, 0, 0, 10, []⟩

/-- `exStRotate` with the retry limit set to 0 (unbounded). -/
def exStRetry0 : ResolverState :=
  ⟨[⟨"1.0.0.1", 0, 0⟩, ⟨"1.0.0.2", 0, 0⟩, ⟨"1.0.0.3", 0, 0⟩],
    [0, 1, 2], [], 0, 30, 2, 0, 0, 0, 10, []⟩

/-- One active server, `MaxFails = 0`, `RetryLimit = 0`, rotate mode: the
setting of the spec's own test scenario "failure threshold of 1, retry
limit 0". -/
def exStOneServer : ResolverState :=
  ⟨[⟨"8.8.8.8", 0, 0⟩], [0], [], 0, 0, 2, 0, 0, 0, 10, []⟩

/-- What `lookup` returns on `exStEmptyCache` when the single attempt fails
transiently: `ErrRetryLimit` after one attempt, the server's `Fails` bumped
to 1 and its `LastUsage` stamped. -/
def exLookupOutFail : LookupOut :=
  ⟨some Err.retryLimit,
    ⟨[⟨"8.8.8.8", 1, 7⟩], [0], [], 0, 30, 2, 1, 5, 20, 10, []⟩, [], 1⟩

/-- What `ResolveHost "h"` returns on `exStEmptyCache` in the same scenario:
the failed lookup's outcome plus the cache entry `("h", ⟨[], 40⟩)` written by
the unconditional insert. -/
def exResolveOutFail : LookupOut :=
  ⟨some Err.retryLimit,
    ⟨[⟨"8.8.8.8", 1, 7⟩], [0], [], 0, 30, 2, 1, 5, 20, 10,
      [("h", ⟨[], 40⟩)]⟩, [], 1⟩

/-! ## Helper lemmas about the embedded operations -/

theorem updSrv_servers (st : ResolverState) (id : Nat) (g : ServerData → ServerData) :
    (updSrv st id g).servers = st.servers := by
  unfold updSrv; cases st.heap.get? id <;> rfl

theorem updSrv_badServers (st : ResolverState) (id : Nat) (g : ServerData → ServerData) :
    (updSrv st id g).badServers = st.badServers := by
  unfold updSrv; cases st.heap.get? id <;> rfl

theorem updSrv_lastNS (st : ResolverState) (id : Nat) (g : ServerData → ServerData) :
    (updSrv st id g).lastNS = st.lastNS := by
  unfold updSrv; cases st.heap.get? id <;> rfl

theorem updSrv_cache (st : ResolverState) (id : Nat) (g : ServerData → ServerData) :
    (updSrv st id g).cache = st.cache := by
  unfold updSrv; cases st.heap.get? id <;> rfl

theorem updSrv_config (st : ResolverState) (id : Nat) (g : ServerData → ServerData) :
    (updSrv st id g).maxFails = st.maxFails ∧ (updSrv st id g).mode = st.mode ∧
    (updSrv st id g).retryLimit = st.retryLimit ∧
    (updSrv st id g).cacheLimit = st.cacheLimit ∧
    (updSrv st id g).cacheLife = st.cacheLife ∧
    (updSrv st id g).restoreTime = st.restoreTime := by
  unfold updSrv; cases st.heap.get? id <;> exact ⟨rfl, rfl, rfl, rfl, rfl, rfl⟩

theorem updSrv_heap_length (st : ResolverState) (id : Nat) (g : ServerData → ServerData) :
    (updSrv st id g).heap.length = st.heap.length := by
  unfold updSrv; cases st.heap.get? id <;> simp

theorem getFails_updSrv_self (st : ResolverState) (id : Nat) (g : ServerData → ServerData)
    (h : id < st.heap.length) :
    getFails (updSrv st id g) id = (g (st.heap.getD id ⟨"", 0, 0⟩)).fails := by
  unfold getFails updSrv
  cases hh : st.heap.get? id with
  | none => exact absurd (List.get?_eq_get h) (by rw [hh]; intro hc; cases hc)
  | some d =>
    have hh2 : st.heap[id]? = some d := by rw [← List.get?_eq_getElem?]; exact hh
    simp [List.getD_eq_getD_get?, List.get?_eq_getElem?, List.getElem?_set_self h, hh2]

theorem getFails_updSrv_ne (st : ResolverState) (id j : Nat) (g : ServerData → ServerData)
    (h : j ≠ id) : getFails (updSrv st id g) j = getFails st j := by
  unfold getFails updSrv
  cases hh : st.heap.get? id with
  | none => rfl
  | some d =>
    simp [List.getD_eq_getD_get?, List.get?_eq_getElem?,
      List.getElem?_set_ne (fun he => h he.symm)]

theorem getFails_setFails_zero (st : ResolverState) (id : Nat) :
    getFails (setFails st id 0) id = 0 := by
  unfold setFails
  by_cases h : id < st.heap.length
  · rw [getFails_updSrv_self st id _ h]
  · unfold getFails updSrv
    cases hh : st.heap.get? id with
    | none =>
      rw [List.get?_eq_getElem?] at hh
      simp [List.getD_eq_getD_get?, List.get?_eq_getElem?, hh]
    | some d =>
      exact absurd (List.get?_eq_some.mp hh).fst (by omega)

theorem getFails_setLastUsage (st : ResolverState) (id j : Nat) (t : Int) :
    getFails (setLastUsage st id t) j = getFails st j := by
  unfold setLastUsage
  by_cases h : j = id
  · subst h
    by_cases hl : j < st.heap.length
    · rw [getFails_updSrv_self st j _ hl]
      unfold getFails
      rfl
    · unfold getFails updSrv
      cases hh : st.heap.get? j with
      | none => rfl
      | some d => exact absurd (List.get?_eq_some.mp hh).fst (by omega)
  · exact getFails_updSrv_ne st id j _ h

theorem disableServer_cache (st : ResolverState) (id : Nat) :
    (disableServer st id).cache = st.cache := by
  unfold disableServer; cases st.servers.findIdx? (fun s => s == id) <;> rfl

theorem disableServer_heap (st : ResolverState) (id : Nat) :
    (disableServer st id).heap = st.heap := by
  unfold disableServer; cases st.servers.findIdx? (fun s => s == id) <;> rfl

theorem disableServer_config (st : ResolverState) (id : Nat) :
    (disableServer st id).maxFails = st.maxFails ∧ (disableServer st id).mode = st.mode ∧
    (disableServer st id).retryLimit = st.retryLimit ∧
    (disableServer st id).cacheLimit = st.cacheLimit ∧
    (disableServer st id).cacheLife = st.cacheLife ∧
    (disableServer st id).restoreTime = st.restoreTime := by
  unfold disableServer
  cases st.servers.findIdx? (fun s => s == id) <;> exact ⟨rfl, rfl, rfl, rfl, rfl, rfl⟩

theorem disableServer_lastNS_found (st : ResolverState) (id i : Nat)
    (h : st.servers.findIdx? (fun s => s == id) = some i) :
    (disableServer st id).lastNS = 0 := by
  unfold disableServer; rw [h]

theorem getServer_empty (st : ResolverState) (u : Int) (rv : Nat)
    (h : st.servers = []) :
    getServer st u rv = some (Except.error Err.serverListEmpty) := by
  unfold getServer
  rw [if_pos (by rw [h]; rfl)]

theorem getServer_badMode (st : ResolverState) (u : Int) (rv : Nat)
    (h1 : st.servers ≠ []) (h2 : st.mode ≠ modeTime) (h3 : st.mode ≠ modeRandom)
    (h4 : st.mode ≠ modeRotate) :
    getServer st u rv = some (Except.error Err.badMode) := by
  unfold getServer
  rw [if_neg (by simpa using h1), if_neg h2, if_neg h3, if_neg h4]

theorem getServer_error_cases (st : ResolverState) (u : Int) (rv : Nat) (e : Err)
    (h : getServer st u rv = some (Except.error e)) :
    e = Err.serverListEmpty ∨ e = Err.badMode := by
  unfold getServer at h
  dsimp only at h
  split at h
  · exact Or.inl (by cases h; rfl)
  · split at h
    · split at h
      · cases h
      · split at h <;> cases h
    · split at h
      · split at h <;> cases h
      · split at h
        · split at h <;> cases h
        · exact Or.inr (by cases h; rfl)

theorem getServer_ok_fields (st : ResolverState) (u : Int) (rv : Nat) (id : Nat)
    (st1 : ResolverState) (h : getServer st u rv = some (Except.ok (id, st1))) :
    st1.servers = st.servers ∧ st1.heap = st.heap ∧ st1.badServers = st.badServers ∧
    st1.cache = st.cache ∧ st1.maxFails = st.maxFails ∧ st1.mode = st.mode ∧
    st1.retryLimit = st.retryLimit ∧ st1.cacheLimit = st.cacheLimit ∧
    st1.cacheLife = st.cacheLife ∧ st1.restoreTime = st.restoreTime := by
  unfold getServer at h
  dsimp only at h
  split at h
  · cases h
  · split at h
    · split at h
      · cases h
      · split at h
        · cases h
          exact ⟨rfl, rfl, rfl, rfl, rfl, rfl, rfl, rfl, rfl, rfl⟩
        · cases h
    · split at h
      · split at h
        · cases h
          exact ⟨rfl, rfl, rfl, rfl, rfl, rfl, rfl, rfl, rfl, rfl⟩
        · cases h
      · split at h
        · split at h
          · cases h
            exact ⟨rfl, rfl, rfl, rfl, rfl, rfl, rfl, rfl, rfl, rfl⟩
          · cases h
        · cases h

theorem getServer_rotate (st : ResolverState) (u : Int) (rv : Nat)
    (hm : st.mode = modeRotate) (hcur : st.lastNS < st.servers.length)
    (hsmall : st.servers.length < u32) :
    getServer st u rv =
      some (Except.ok (st.servers.getD st.lastNS 0,
        { st with lastNS := (st.lastNS + 1) % st.servers.length })) := by
  unfold getServer
  rw [if_neg (by omega), hm]
  rw [if_neg (by unfold modeRotate modeTime; omega),
    if_neg (by unfold modeRotate modeRandom; omega), if_pos rfl]
  have hget : st.servers.get? st.lastNS = some (st.servers.getD st.lastNS 0) := by
    rw [List.getD_eq_getD_get?, List.get?_eq_get hcur]
    rfl
  rw [hget]
  have hmod : (st.lastNS + 1) % u32 = st.lastNS + 1 := Nat.mod_eq_of_lt (by omega)
  simp only [hmod]
  by_cases hend : st.lastNS + 1 = st.servers.length
  · rw [if_pos (by omega)]
    rw [hend, Nat.mod_self]
  · rw [if_neg (by omega)]
    rw [Nat.mod_eq_of_lt (by omega)]

/-- The part of the state the lookup loop never writes: the cache and every
configuration knob.  (`lookup` only touches the pool: heap fields,
`servers`, `badServers`, `lastNS`.) -/
def config (st : ResolverState) :
    List (String × CacheEntry) × Int × Int × Int × Nat × Int × Int :=
  (st.cache, st.cacheLimit, st.cacheLife, st.retryLimit, st.maxFails, st.mode,
    st.restoreTime)

theorem config_updSrv (st : ResolverState) (id : Nat) (g : ServerData → ServerData) :
    config (updSrv st id g) = config st := by
  unfold updSrv; cases st.heap.get? id <;> rfl

theorem config_disableServer (st : ResolverState) (id : Nat) :
    config (disableServer st id) = config st := by
  unfold disableServer; cases st.servers.findIdx? (fun s => s == id) <;> rfl

theorem config_getServer_ok (st : ResolverState) (u : Int) (rv : Nat) (id : Nat)
    (st1 : ResolverState) (h : getServer st u rv = some (Except.ok (id, st1))) :
    config st1 = config st := by
  obtain ⟨-, -, -, h1, h2, h3, h4, h5, h6, h7⟩ := getServer_ok_fields st u rv id st1 h
  unfold config
  rw [h1, h2, h3, h4, h5, h6, h7]

theorem config_lookupLoop (env : Env) :
    ∀ (fuel a sel : Nat) (res : List String) (st : ResolverState) (out : LookupOut),
      lookupLoop env fuel a sel res st = RunResult.done out →
      config out.state = config st := by
  intro fuel
  induction fuel with
  | zero => intro a sel res st out h; cases h
  | succ n ih =>
    intro a sel res st out h
    unfold lookupLoop at h
    split at h
    · cases h
    · cases h; rfl
    · rename_i sid st1 heq
      have h1 : config st1 = config st := config_getServer_ok st _ _ sid st1 heq
      split at h
      · cases h
        show config (setFails (setLastUsage st1 sid _) sid 0) = config st
        rw [setFails, setLastUsage, config_updSrv, config_updSrv, h1]
      · cases h
        show config (setFails (setLastUsage st1 sid _) sid 0) = config st
        rw [setFails, setLastUsage, config_updSrv, config_updSrv, h1]
      · have h2 : config (if (setLastUsage st1 sid (env.times a)).maxFails <
            getFails (setLastUsage st1 sid (env.times a)) sid then
              disableServer (setLastUsage st1 sid (env.times a)) sid
            else
              setFails (setLastUsage st1 sid (env.times a)) sid
                ((getFails (setLastUsage st1 sid (env.times a)) sid + 1) % u32)) =
            config st := by
          split
          · rw [config_disableServer, setLastUsage, config_updSrv, h1]
          · rw [setFails, config_updSrv, setLastUsage, config_updSrv, h1]
        split at h
        · cases h; exact h2
        · exact (ih _ _ _ _ _ h).trans h2

theorem config_fields (s t : ResolverState) (h : config s = config t) :
    s.cache = t.cache ∧ s.cacheLimit = t.cacheLimit ∧ s.cacheLife = t.cacheLife ∧
    s.retryLimit = t.retryLimit ∧ s.maxFails = t.maxFails ∧ s.mode = t.mode ∧
    s.restoreTime = t.restoreTime := by
  unfold config at h
  exact ⟨congrArg (·.1) h, congrArg (·.2.1) h, congrArg (·.2.2.1) h,
    congrArg (·.2.2.2.1) h, congrArg (·.2.2.2.2.1) h,
    congrArg (·.2.2.2.2.2.1) h, congrArg (·.2.2.2.2.2.2) h⟩

theorem lookupLoop_err_result (env : Env) :
    ∀ (fuel a sel : Nat) (res : List String) (st : ResolverState) (out : LookupOut),
      lookupLoop env fuel a sel res st = RunResult.done out →
      (out.err = some Err.retryLimit ∨ out.err = some Err.noSuchHost) →
      out.result = [] := by
  intro fuel
  induction fuel with
  | zero => intro a sel res st out h; cases h
  | succ n ih =>
    intro a sel res st out h herr
    unfold lookupLoop at h
    split at h
    · cases h
    · cases h
      rename_i e heq
      rcases getServer_error_cases st (env.times a) (env.rands a) e heq with h1 | h1 <;>
        rcases herr with h2 | h2 <;> simp_all
    · split at h
      · cases h; rfl
      · cases h
        rcases herr with h2 | h2 <;> simp_all
      · split at h
        · cases h; rfl
        · exact ih _ _ _ _ _ h herr

theorem lookupLoop_no_retryLimit (env : Env) :
    ∀ (fuel a sel : Nat) (res : List String) (st : ResolverState) (out : LookupOut),
      st.retryLimit ≤ 0 →
      lookupLoop env fuel a sel res st = RunResult.done out →
      out.err ≠ some Err.retryLimit := by
  intro fuel
  induction fuel with
  | zero => intro a sel res st out _ h; cases h
  | succ n ih =>
    intro a sel res st out hrl h
    unfold lookupLoop at h
    split at h
    · cases h
    · cases h
      rename_i e heq
      rcases getServer_error_cases st (env.times a) (env.rands a) e heq with h1 | h1 <;>
        simp_all
    · rename_i sid st1 heq
      split at h
      · cases h; simp
      · cases h; simp
      · split at h
        · rename_i hcond
          exact absurd hcond.1 (by omega)
        · rename_i hcond
          refine ih _ _ _ _ _ ?_ h
          have h1 := config_getServer_ok st _ _ sid st1 heq
          have h2 : ∀ s', config s' = config st → s'.retryLimit ≤ 0 := by
            intro s' hs'
            rw [(config_fields _ _ hs').2.2.2.1]; exact hrl
          apply h2
          split
          · rw [config_disableServer, setLastUsage, config_updSrv, h1]
          · rw [setFails, config_updSrv, setLastUsage, config_updSrv, h1]

theorem cacheInsert_length_le (c : List (String × CacheEntry)) (h : String)
    (e : CacheEntry) : (cacheInsert c h e).length ≤ c.length + 1 := by
  induction c with
  | nil => simp [cacheInsert]
  | cons p t iht =>
    unfold cacheInsert
    split
    · simp
    · simpa using Nat.succ_le_succ iht

theorem cacheFind_cacheInsert_self (c : List (String × CacheEntry)) (h : String)
    (e : CacheEntry) : cacheFind (cacheInsert c h e) h = some e := by
  induction c with
  | nil => simp [cacheInsert, cacheFind]
  | cons p t iht =>
    unfold cacheInsert
    split
    · unfold cacheFind
      rw [List.find?_cons_of_pos _ (by simp)]
      rfl
    · rename_i hne
      unfold cacheFind
      rw [List.find?_cons_of_neg _ (by simpa using hne)]
      exact iht

theorem clearCache_cache_length (now : Int) (st : ResolverState)
    (hlim : 0 < st.cacheLimit) (hlen : (st.cache.length : Int) ≤ st.cacheLimit) :
    ((clearCache now st).cache.length : Int) ≤ st.cacheLimit - 1 := by
  unfold clearCache
  have hf := List.length_filter_le (fun e => decide (now - e.2.lastHit < st.cacheLife))
    st.cache
  dsimp only
  split
  · rename_i hge
    rw [List.length_drop]
    omega
  · rename_i hlt
    omega

/-! ## Claim theorems -/

/-- **C9.** For every configured strategy value — including an unrecognized
one — `GetServer` (`Select()`) on an empty active pool returns
`ErrServerListEmpty` (never panics, never another error); only when the
active pool is non-empty does an unrecognized strategy value return
`ErrBadMode`. -/
theorem claim9_empty_pool_before_strategy (st : ResolverState) (u : Int) (rv : Nat) :
    (st.servers = [] →
      getServer st u rv = some (Except.error Err.serverListEmpty)) ∧
    (st.servers ≠ [] → st.mode ≠ modeRandom → st.mode ≠ modeRotate →
      st.mode ≠ modeTime →
      getServer st u rv = some (Except.error Err.badMode)) :=
  ⟨fun h => getServer_empty st u rv h,
   fun h1 h3 h4 h2 => getServer_badMode st u rv h1 h2 h3 h4⟩

/-- Witness for C9: the concrete empty pool with unrecognized mode 99
returns `ErrServerListEmpty`; with one server it returns `ErrBadMode`. -/
theorem claim9_empty_pool_before_strategy_witness :
    getServer exStEmptyBadMode 0 0 = some (Except.error Err.serverListEmpty) ∧
    getServer exStBadMode 0 0 = some (Except.error Err.badMode) :=
  ⟨(claim9_empty_pool_before_strategy exStEmptyBadMode 0 0).1 rfl,
   (claim9_empty_pool_before_strategy exStBadMode 0 0).2 (by decide) (by decide)
     (by decide) (by decide)⟩

theorem selectList_rotate (u : Int) (rv : Nat) :
    ∀ (n : Nat) (st : ResolverState), st.mode = modeRotate →
      st.lastNS < st.servers.length → st.servers.length < u32 →
      selectList u rv n st =
        (List.range n).map
          (fun k => st.servers.get? ((st.lastNS + k) % st.servers.length)) := by
  intro n
  induction n with
  | zero => intro st _ _ _; rfl
  | succ m ih =>
    intro st hm hcur hsmall
    rw [selectList, getServer_rotate st u rv hm hcur hsmall]
    have hlen : 0 < st.servers.length := by omega
    have hget : st.servers.get? st.lastNS = some (st.servers.getD st.lastNS 0) := by
      rw [List.getD_eq_getD_get?, List.get?_eq_get hcur]
      rfl
    dsimp only
    rw [List.range_succ_eq_map, List.map_cons, List.map_map]
    congr 1
    · rw [Nat.add_zero, Nat.mod_eq_of_lt hcur, hget]
    · rw [ih { st with lastNS := (st.lastNS + 1) % st.servers.length } hm
        (Nat.mod_lt _ hlen) hsmall]
      congr 1
      funext k
      show st.servers.get? (((st.lastNS + 1) % st.servers.length + k) %
          st.servers.length) = st.servers.get? ((st.lastNS + Nat.succ k) %
          st.servers.length)
      rw [Nat.mod_add_mod]
      have harg : st.lastNS + 1 + k = st.lastNS + Nat.succ k := by omega
      rw [harg]

/-- **C8.** Under the rotate (round-robin) strategy, the `k`-th of any run of
consecutive `GetServer` calls returns `active[(cursor + k) mod N]` — i.e.
each call returns `active[cursor]` and advances the cursor modulo the active
count — and, starting from cursor 0, `N` consecutive calls return each of
the `N` active servers exactly once in load order; the mod-`N` formula gives
the deterministic period-`N` cycle. -/
theorem claim8_roundrobin_cycle (st : ResolverState) (u : Int) (rv : Nat)
    (hm : st.mode = modeRotate) (hcur : st.lastNS < st.servers.length)
    (hsmall : st.servers.length < u32) :
    (∀ n, selectList u rv n st =
      (List.range n).map
        (fun k => st.servers.get? ((st.lastNS + k) % st.servers.length))) ∧
    (st.lastNS = 0 →
      selectList u rv st.servers.length st = st.servers.map some) := by
  constructor
  · intro n
    exact selectList_rotate u rv n st hm hcur hsmall
  · intro h0
    rw [selectList_rotate u rv st.servers.length st hm hcur hsmall]
    apply List.ext
    intro n
    rw [List.get?_map, List.get?_map]
    by_cases hn : n < st.servers.length
    · rw [List.get?_range hn, List.get?_eq_get hn]
      show some (st.servers.get? ((st.lastNS + n) % st.servers.length)) = _
      rw [h0, Nat.zero_add, Nat.mod_eq_of_lt hn, List.get?_eq_get hn]
      rfl
    · rw [List.get?_eq_none.mpr (by rw [List.length_range]; omega),
        List.get?_eq_none.mpr (by omega)]
      rfl

/-- Witness for C8: three servers, cursor 0: six consecutive selections
cycle `0,1,2,0,1,2`, and three selections return each exactly once. -/
theorem claim8_roundrobin_cycle_witness :
    selectList 0 0 6 exStRotate = [some 0, some 1, some 2, some 0, some 1, some 2] ∧
    selectList 0 0 3 exStRotate = [some 0, some 1, some 2] := by
  have h := claim8_roundrobin_cycle exStRotate 0 0 rfl (by decide)
    (by norm_num [u32, exStRotate])
  exact ⟨((h.1 6).trans (by decide)), ((h.2 rfl).trans (by decide))⟩

/-- **C5.** When the executor's outcome of the first attempt is classified as
name-not-found, `lookup` resets the selected server's `Fails` to 0 and
returns `ErrNoSuchHost` on that very attempt: exactly one selection, no
retry — for every retry-limit setting (`st.retryLimit` is arbitrary here,
including 0 and values > 1). -/
theorem claim5_notfound_immediate (env : Env) (st st1 : ResolverState) (sid : Nat)
    (fuel : Nat) (hfuel : 0 < fuel)
    (hsel : getServer st (env.times 1) (env.rands 1) = some (Except.ok (sid, st1)))
    (hout : env.outcomes 1 = QueryOutcome.notFound) :
    lookupGo env fuel st =
      RunResult.done ⟨some Err.noSuchHost,
        setFails (setLastUsage st1 sid (env.times 1)) sid 0, [], 1⟩ ∧
    getFails (setFails (setLastUsage st1 sid (env.times 1)) sid 0) sid = 0 := by
  obtain ⟨m, rfl⟩ : ∃ m, fuel = m + 1 := ⟨fuel - 1, by omega⟩
  unfold lookupGo lookupLoop
  rw [hsel, hout]
  exact ⟨rfl, getFails_setFails_zero _ _⟩

/-- Witness for C5: on a concrete pool with `RetryLimit = 5` a first-attempt
name-not-found terminates the lookup at once with `Fails` reset. -/
theorem claim5_notfound_immediate_witness :
    lookupGo envAllNotFound 5 exStRotate =
      RunResult.done ⟨some Err.noSuchHost,
        setFails (setLastUsage { exStRotate with lastNS := 1 } 0
          (envAllNotFound.times 1)) 0 0, [], 1⟩ ∧
    getFails (setFails (setLastUsage { exStRotate with lastNS := 1 } 0
      (envAllNotFound.times 1)) 0 0) 0 = 0 :=
  claim5_notfound_immediate envAllNotFound exStRotate
    { exStRotate with lastNS := 1 } 0 5 (by omega) rfl rfl

/-- Capacity bound for the miss path of `ResolveHost`. -/
theorem resolveHostMiss_cache_bounded (env : Env) (fuel : Nat)
    (st : ResolverState) (host : String) (nowIns : Int) (out : LookupOut)
    (hlim : 0 < st.cacheLimit) (hlen : (st.cache.length : Int) ≤ st.cacheLimit)
    (hrun : resolveHost.resolveHostMiss env fuel st host nowIns = RunResult.done out) :
    (out.state.cache.length : Int) ≤ st.cacheLimit := by
  unfold resolveHost.resolveHostMiss at hrun
  split at hrun
  · cases hrun
  · cases hrun
  · rename_i out0 hlk
    obtain ⟨hc, hcl, -, -, -, -, -⟩ :=
      config_fields _ _ (config_lookupLoop env fuel 1 0 [] st out0 hlk)
    dsimp only at hrun
    split at hrun
    · rename_i hpos
      cases hrun
      show ((cacheInsert _ host ⟨out0.result, nowIns⟩).length : Int) ≤ st.cacheLimit
      split
      · rename_i hful
        have h1 := clearCache_cache_length nowIns out0.state
          (by rw [hcl]; exact hlim) (by rw [hc, hcl]; exact hlen)
        have h2 := cacheInsert_length_le (clearCache nowIns out0.state).cache host
          ⟨out0.result, nowIns⟩
        rw [hcl] at h1
        omega
      · rename_i hroom
        have h2 := cacheInsert_length_le out0.state.cache host ⟨out0.result, nowIns⟩
        have hclen : out0.state.cache.length = st.cache.length := by rw [hc]
        rw [hcl] at hroom
        omega
    · cases hrun
      rw [hc]
      exact hlen

/-- **C7.** The cache size never exceeds the configured capacity after a
`ResolveHost` call: from any state within capacity, the state a terminated
`ResolveHost` leaves behind is within capacity (when the cache is full the
expiry sweep, then a single arbitrary eviction, run before the insert). -/
theorem claim7_cache_bounded (env : Env) (fuel : Nat) (st : ResolverState)
    (host : String) (nowIns : Int) (out : LookupOut)
    (hlim : 0 < st.cacheLimit) (hlen : (st.cache.length : Int) ≤ st.cacheLimit)
    (hrun : resolveHost env fuel st host nowIns = RunResult.done out) :
    (out.state.cache.length : Int) ≤ st.cacheLimit := by
  unfold resolveHost at hrun
  cases hfind : cacheFind st.cache host with
  | some v =>
    rw [hfind] at hrun
    dsimp only at hrun
    rw [if_pos hlim] at hrun
    cases hrun
    exact hlen
  | none =>
    rw [hfind] at hrun
    dsimp only at hrun
    exact resolveHostMiss_cache_bounded env fuel st host nowIns out hlim hlen hrun

/-- Witness for C7: the concrete failing `ResolveHost` run on an empty cache
of capacity 5 leaves one entry, within capacity. -/
theorem claim7_cache_bounded_witness :
    ((exResolveOutFail.state.cache.length : Int)) ≤ exStEmptyCache.cacheLimit :=
  claim7_cache_bounded envAllFail 1 exStEmptyCache "h" 40 exResolveOutFail
    (by decide) (by decide) rfl

/-- **C1.** The code does NOT update the stored entry's `lastHit` on a cache
read: `v, ok := r.cache[host]` copies the map value and `v.lastHit =
time.Now()` mutates only that copy (a dead store), so `ResolveHost`'s hit
path returns with the state unchanged.  Concretely: the entry `"h"` is
inserted at time 0 with `CacheLife = 20`; a hit at time 10 leaves the stored
`lastHit` at 0 (first and second conjuncts: the returned state is the input
state, whose stored `lastHit` is still 0); the eviction sweep at time 25 —
only 15 after the read, within every `CacheLife` window — still removes the
entry (third conjunct), contradicting the claim that an entry read within
every `cacheLifetime` window is never evicted as expired. -/
theorem claim1_read_does_not_refresh :
    resolveHost envAllNotFound 1 exStCached "h" 99 =
      RunResult.done ⟨none, exStCached, ["1.2.3.4"], 0⟩ ∧
    cacheFind exStCached.cache "h" = some ⟨["1.2.3.4"], 0⟩ ∧
    (clearCache 25 exStCached).cache = [] :=
  ⟨rfl, rfl, rfl⟩

/-- **C2.** The restore sweep mutates `r.badServers` (swap-remove) while
ranging over it; the range loop keeps the originally captured length, so
with two — or three — simultaneously eligible quarantined servers the write
`r.badServers[i] = r.badServers[len(r.badServers)-1]` is reached with
`i ≥ len(r.badServers)` and panics with an index-out-of-range error instead
of restoring every eligible server. -/
theorem claim2_restore_sweep_panics :
    restoreServers 100 exStTwoEligible = none ∧
    restoreServers 100 exStThreeEligible = none :=
  ⟨rfl, rfl⟩

/-- **C4** counterexample: `restoreServers` changes the active collection's
membership (it inserts the restored server: `active` goes from `[0, 1]` to
`[0, 1, 2]`) yet leaves the rotation cursor at 1 instead of resetting it
to 0, so "every operation that changes the active collection's membership
resets the cursor to 0" is false for restore insertion. -/
theorem claim4_counterexample :
    (restoreServers 100 exStCursorOne).map (fun s => s.servers) = some [0, 1, 2] ∧
    exStCursorOne.lastNS = 1 ∧
    (restoreServers 100 exStCursorOne).map (fun s => s.lastNS) = some 1 :=
  ⟨rfl, rfl, rfl⟩

theorem cursorInv_getServer_ok (st : ResolverState) (u : Int) (rv : Nat) (id : Nat)
    (st1 : ResolverState) (hinv : cursorInv st)
    (h : getServer st u rv = some (Except.ok (id, st1))) : cursorInv st1 := by
  unfold getServer at h
  dsimp only at h
  by_cases h0 : st.servers.length = 0
  · rw [if_pos h0] at h; cases h
  rw [if_neg h0] at h
  by_cases ht : st.mode = modeTime
  · rw [if_pos ht] at h
    by_cases hneg : u.tmod (st.servers.length : Int) < 0
    · rw [if_pos hneg] at h; cases h
    · rw [if_neg hneg] at h
      cases hget : st.servers.get? (u.tmod (st.servers.length : Int)).toNat with
      | none => rw [hget] at h; cases h
      | some sid => rw [hget] at h; dsimp only at h; cases h; exact hinv
  rw [if_neg ht] at h
  by_cases hr : st.mode = modeRandom
  · rw [if_pos hr] at h
    cases hget : st.servers.get? (rv % st.servers.length) with
    | none => rw [hget] at h; cases h
    | some sid => rw [hget] at h; dsimp only at h; cases h; exact hinv
  rw [if_neg hr] at h
  by_cases hrot : st.mode = modeRotate
  · rw [if_pos hrot] at h
    cases hget : st.servers.get? st.lastNS with
    | none => rw [hget] at h; cases h
    | some sid =>
      rw [hget] at h
      dsimp only at h
      have hcur : st.lastNS < st.servers.length := (List.get?_eq_some.mp hget).fst
      cases h
      right
      dsimp only
      split
      · omega
      · rename_i hn
        omega
  · rw [if_neg hrot] at h; cases h

theorem cursorInv_disableServer (st : ResolverState) (id : Nat)
    (hinv : cursorInv st) : cursorInv (disableServer st id) := by
  unfold disableServer
  cases hfi : st.servers.findIdx? (fun s => s == id) with
  | none => exact hinv
  | some i =>
    dsimp only
    have hlen : ((st.servers.set i (st.servers.getD (st.servers.length - 1) 0)).take
        (st.servers.length - 1)).length = st.servers.length - 1 := by
      rw [List.length_take, List.length_set]; omega
    by_cases h0 : st.servers.length - 1 = 0
    · left
      exact ⟨List.length_eq_zero.mp (by rw [hlen]; exact h0), rfl⟩
    · right
      dsimp only
      rw [hlen]
      omega

theorem restoreLoop_cursor_servers (now : Int) :
    ∀ (rem i : Nat) (arr : List Nat) (badLen : Nat) (st st2 : ResolverState),
      restoreLoop now rem i arr badLen st = some st2 →
      st2.lastNS = st.lastNS ∧ ∃ t, st2.servers = st.servers ++ t := by
  intro rem
  induction rem with
  | zero =>
    intro i arr badLen st st2 h
    cases h
    exact ⟨rfl, ⟨[], by simp⟩⟩
  | succ m ih =>
    intro i arr badLen st st2 h
    unfold restoreLoop at h
    dsimp only at h
    split at h
    · split at h
      · obtain ⟨h1, t, h2⟩ := ih _ _ _ _ _ h
        exact ⟨h1, ⟨arr.getD i 0 :: t, by rw [h2]; simp⟩⟩
      · cases h
    · exact ih _ _ _ _ _ h

theorem cursorInv_of_append (st st2 : ResolverState) (hinv : cursorInv st)
    (hns : st2.lastNS = st.lastNS) (t : List Nat)
    (hs : st2.servers = st.servers ++ t) : cursorInv st2 := by
  rcases hinv with ⟨h1, h2⟩ | h
  · cases t with
    | nil => left; exact ⟨by rw [hs, h1]; rfl, by rw [hns, h2]⟩
    | cons a tt =>
      right
      rw [hs, hns, h2, h1]
      simp
  · right
    rw [hs, hns, List.length_append]
    omega

theorem addServer_lastNS (st : ResolverState) (a : String) (v : Bool) :
    (addServer st a v).lastNS = st.lastNS := by
  unfold addServer; split <;> rfl

theorem cursorInv_addServer (st : ResolverState) (a : String) (v : Bool)
    (hinv : cursorInv st) : cursorInv (addServer st a v) := by
  unfold addServer
  split
  · rcases hinv with ⟨h1, h2⟩ | h
    · right
      dsimp only
      rw [h1, h2]
      simp
    · right
      dsimp only
      rw [List.length_append]
      omega
  · exact hinv

theorem foldl_addServer_inv (lines : List (String × Bool)) :
    ∀ st : ResolverState, cursorInv st →
      cursorInv (lines.foldl (fun s l => addServer s l.1 l.2) st) ∧
      (lines.foldl (fun s l => addServer s l.1 l.2) st).lastNS = st.lastNS := by
  induction lines with
  | nil => intro st h; exact ⟨h, rfl⟩
  | cons p t ih =>
    intro st h
    rw [List.foldl_cons]
    obtain ⟨ha, hb⟩ := ih (addServer st p.1 p.2) (cursorInv_addServer st p.1 p.2 h)
    exact ⟨ha, hb.trans (addServer_lastNS st p.1 p.2)⟩

/-- **C4** amended: the rotation cursor is a valid index into `active`
whenever `active` is non-empty (and is 0 while `active` is empty), this
invariant is preserved by selection, quarantine removal, load, and the
restore sweep; load and quarantine removal reset the cursor to 0 — but
restore insertion does NOT reset it: it leaves the cursor unchanged
(validity is still preserved because restore only appends to `active`). -/
theorem claim4_amended (st : ResolverState) :
    (∀ u rv id st1, cursorInv st →
      getServer st u rv = some (Except.ok (id, st1)) → cursorInv st1) ∧
    (∀ id, cursorInv st → cursorInv (disableServer st id)) ∧
    (∀ id i, st.servers.findIdx? (fun s => s == id) = some i →
      (disableServer st id).lastNS = 0) ∧
    (∀ lines, (loadFromReader st lines).lastNS = 0 ∧
      cursorInv (loadFromReader st lines)) ∧
    (∀ now st2, restoreServers now st = some st2 → cursorInv st →
      cursorInv st2 ∧ st2.lastNS = st.lastNS) := by
  refine ⟨?_, ?_, ?_, ?_, ?_⟩
  · intro u rv id st1 hinv h
    exact cursorInv_getServer_ok st u rv id st1 hinv h
  · intro id hinv
    exact cursorInv_disableServer st id hinv
  · intro id i h
    exact disableServer_lastNS_found st id i h
  · intro lines
    unfold loadFromReader
    dsimp only
    obtain ⟨ha, hb⟩ := foldl_addServer_inv lines
      { st with servers := [], badServers := [], lastNS := 0 } (Or.inl ⟨rfl, rfl⟩)
    exact ⟨hb, ha⟩
  · intro now st2 h hinv
    obtain ⟨h1, t, h2⟩ := restoreLoop_cursor_servers now _ _ _ _ st st2 h
    exact ⟨cursorInv_of_append st st2 hinv h1 t h2, h1⟩

/-- Witness for the amended C4, at the concrete pool `exStCursorOne`
(cursor 1, two active servers, one eligible quarantined server): the restore
sweep keeps the cursor at 1 and the invariant holds afterwards; disabling
server 0 resets the cursor to 0; a selection preserves the invariant. -/
theorem claim4_amended_witness :
    cursorInv { exStCursorOne with
      heap := [⟨"1.0.0.1", 0, 50⟩, ⟨"1.0.0.2", 0, 50⟩, ⟨"1.0.0.3", 0, 0⟩],
      servers := [0, 1, 2], badServers := [] } ∧
    (disableServer exStCursorOne 0).lastNS = 0 ∧
    cursorInv { exStCursorOne with lastNS := 0 } := by
  have h := claim4_amended exStCursorOne
  refine ⟨?_, h.2.2.1 0 0 rfl, ?_⟩
  · exact (h.2.2.2.2 100 _ rfl (by decide)).1
  · exact h.1 0 0 1 { exStCursorOne with lastNS := 0 } (by decide) rfl

theorem lookupLoop_fail_step (env : Env) (st : ResolverState) (a sel : Nat)
    (res : List String) (f : Nat)
    (hm : st.mode = modeRotate) (hcur : st.lastNS < st.servers.length)
    (hsmall : st.servers.length < u32)
    (hfail : env.outcomes a = QueryOutcome.failure) :
    lookupLoop env (f + 1) a sel res st =
      (let sid := st.servers.getD st.lastNS 0
       let st2 := setLastUsage
         { st with lastNS := (st.lastNS + 1) % st.servers.length } sid (env.times a)
       let st3 := if st2.maxFails < getFails st2 sid then disableServer st2 sid
                  else setFails st2 sid ((getFails st2 sid + 1) % u32)
       if 0 < st.retryLimit ∧ st.retryLimit ≤ (a : Int) then
         RunResult.done ⟨some Err.retryLimit, st3, [], sel + 1⟩
       else lookupLoop env f (a + 1) (sel + 1) [] st3) := by
  rw [lookupLoop, getServer_rotate st (env.times a) (env.rands a) hm hcur hsmall]
  dsimp only
  rw [hfail]

theorem setFails_servers (st : ResolverState) (id f : Nat) :
    (setFails st id f).servers = st.servers := updSrv_servers st id _

theorem setFails_lastNS (st : ResolverState) (id f : Nat) :
    (setFails st id f).lastNS = st.lastNS := updSrv_lastNS st id _

theorem setFails_heap_length (st : ResolverState) (id f : Nat) :
    (setFails st id f).heap.length = st.heap.length := updSrv_heap_length st id _

theorem setLastUsage_servers (st : ResolverState) (id : Nat) (t : Int) :
    (setLastUsage st id t).servers = st.servers := updSrv_servers st id _

theorem setLastUsage_lastNS (st : ResolverState) (id : Nat) (t : Int) :
    (setLastUsage st id t).lastNS = st.lastNS := updSrv_lastNS st id _

theorem setLastUsage_heap_length (st : ResolverState) (id : Nat) (t : Int) :
    (setLastUsage st id t).heap.length = st.heap.length := updSrv_heap_length st id _

theorem getFails_setFails_self (st : ResolverState) (id f : Nat)
    (h : id < st.heap.length) : getFails (setFails st id f) id = f :=
  getFails_updSrv_self st id _ h

theorem getFails_setFails_ne (st : ResolverState) (id j f : Nat) (h : j ≠ id) :
    getFails (setFails st id f) j = getFails st j :=
  getFails_updSrv_ne st id j _ h

/-- The selected server of a rotate-mode step is an element of `active`. -/
theorem rotate_selected_mem (st : ResolverState)
    (hcur : st.lastNS < st.servers.length) :
    st.servers.getD st.lastNS 0 ∈ st.servers := by
  rw [List.getD_eq_get _ _ hcur]
  exact List.get_mem _ _ _

theorem lookupLoop_all_fail_exact (env : Env) (N : Nat)
    (hfail : ∀ a, env.outcomes a = QueryOutcome.failure) (hN : 0 < N) :
    ∀ (k : Nat), 0 < k → ∀ (st : ResolverState) (a sel : Nat) (res : List String),
      st.retryLimit = (N : Int) → a + k = N + 1 →
      st.mode = modeRotate → st.lastNS < st.servers.length →
      st.servers.length < u32 → st.maxFails + 1 < u32 →
      (∀ id ∈ st.servers, id < st.heap.length) →
      (∀ j, j < st.heap.length → getFails st j + k ≤ st.maxFails + 2) →
      ∀ fuel, k ≤ fuel →
        ∃ stF, lookupLoop env fuel a sel res st =
          RunResult.done ⟨some Err.retryLimit, stF, [], sel + k⟩ := by
  intro k
  induction k with
  | zero => intro hk; omega
  | succ m ih =>
    intro _ st a sel res hrl hak hm hcur hsmall hmf hvalid hfb fuel hfuel
    obtain ⟨f, rfl⟩ : ∃ f, fuel = f + 1 := ⟨fuel - 1, by omega⟩
    rw [lookupLoop_fail_step env st a sel res f hm hcur hsmall (hfail a)]
    dsimp only
    have hsid : st.servers.getD st.lastNS 0 ∈ st.servers := rotate_selected_mem st hcur
    set sid := st.servers.getD st.lastNS 0 with hsiddef
    have hsidlt : sid < st.heap.length := hvalid sid hsid
    set st1 : ResolverState :=
      { st with lastNS := (st.lastNS + 1) % st.servers.length } with hst1
    set st2 := setLastUsage st1 sid (env.times a) with hst2
    have h21 : ∀ j, getFails st2 j = getFails st j := fun j =>
      getFails_setLastUsage st1 sid j _
    have hcfg2 : config st2 = config st := by
      rw [hst2]
      exact (config_updSrv st1 sid _).trans (by exact rfl)
    have hmf2 : st2.maxFails = st.maxFails := (config_fields _ _ hcfg2).2.2.2.2.1
    by_cases hm0 : m = 0
    · subst hm0
      have haN : a = N := by omega
      rw [if_pos (show 0 < st.retryLimit ∧ st.retryLimit ≤ (a : Int) by
        rw [hrl, haN]; exact ⟨by exact_mod_cast hN, le_refl _⟩)]
      exact ⟨_, rfl⟩
    · have hnd : ¬ (st2.maxFails < getFails st2 sid) := by
        have := hfb sid hsidlt
        rw [hmf2, h21]
        omega
      rw [if_neg hnd,
        if_neg (show ¬ (0 < st.retryLimit ∧ st.retryLimit ≤ (a : Int)) by
          rw [hrl]; intro hcon; have := hcon.2; omega)]
      set st3 := setFails st2 sid ((getFails st2 sid + 1) % u32) with hst3
      have hcfg3 : config st3 = config st := by
        rw [hst3, setFails, config_updSrv, hcfg2]
      obtain ⟨-, -, -, hrl3, hmf3, hmo3, -⟩ := config_fields _ _ hcfg3
      have hsrv3 : st3.servers = st.servers := by
        rw [hst3, setFails_servers, hst2, setLastUsage_servers, hst1]
      have hns3 : st3.lastNS = (st.lastNS + 1) % st.servers.length := by
        rw [hst3, setFails_lastNS, hst2, setLastUsage_lastNS, hst1]
      have hhl3 : st3.heap.length = st.heap.length := by
        rw [hst3, setFails_heap_length, hst2, setLastUsage_heap_length, hst1]
      have hfb2 : getFails st sid ≤ st.maxFails := by
        have := hfb sid hsidlt
        omega
      have hlt2 : sid < st2.heap.length := by
        rw [hst2, setLastUsage_heap_length, hst1]
        exact hsidlt
      have hfs3 : getFails st3 sid = getFails st sid + 1 := by
        rw [hst3, getFails_setFails_self st2 sid _ hlt2, h21]
        exact Nat.mod_eq_of_lt (by omega)
      obtain ⟨stF, hF⟩ := ih (by omega) st3 (a + 1) (sel + 1) []
        (by rw [hrl3]; exact hrl) (by omega) (by rw [hmo3]; exact hm)
        (by rw [hns3, hsrv3]; exact Nat.mod_lt _ (by omega))
        (by rw [hsrv3]; exact hsmall) (by rw [hmf3]; exact hmf)
        (by rw [hsrv3, hhl3]; exact hvalid)
        (by
          intro j hj
          rw [hhl3] at hj
          rw [hmf3]
          by_cases hjs : j = sid
          · subst hjs
            rw [hfs3]
            have := hfb sid hj
            omega
          · rw [hst3, getFails_setFails_ne st2 sid j _ hjs, h21]
            have := hfb j hj
            omega)
        f (by omega)
      refine ⟨stF, ?_⟩
      rw [hF]
      have : sel + 1 + m = sel + (m + 1) := by omega
      rw [this]

theorem lookupLoop_all_fail_fuelOut (env : Env)
    (hfail : ∀ a, env.outcomes a = QueryOutcome.failure) :
    ∀ (fuel : Nat) (st : ResolverState) (a sel : Nat) (res : List String),
      st.retryLimit ≤ 0 → st.mode = modeRotate → st.lastNS < st.servers.length →
      st.servers.length < u32 → st.maxFails + 1 < u32 →
      (∀ id ∈ st.servers, id < st.heap.length) →
      (∀ j, j < st.heap.length → getFails st j + fuel ≤ st.maxFails + 1) →
      lookupLoop env fuel a sel res st = RunResult.fuelOut := by
  intro fuel
  induction fuel with
  | zero => intro st a sel res _ _ _ _ _ _ _; rfl
  | succ f ih =>
    intro st a sel res hrl hm hcur hsmall hmf hvalid hfb
    rw [lookupLoop_fail_step env st a sel res f hm hcur hsmall (hfail a)]
    dsimp only
    have hsid : st.servers.getD st.lastNS 0 ∈ st.servers := rotate_selected_mem st hcur
    set sid := st.servers.getD st.lastNS 0 with hsiddef
    have hsidlt : sid < st.heap.length := hvalid sid hsid
    set st1 : ResolverState :=
      { st with lastNS := (st.lastNS + 1) % st.servers.length } with hst1
    set st2 := setLastUsage st1 sid (env.times a) with hst2
    have h21 : ∀ j, getFails st2 j = getFails st j := fun j =>
      getFails_setLastUsage st1 sid j _
    have hcfg2 : config st2 = config st := by
      rw [hst2]
      exact (config_updSrv st1 sid _).trans (by exact rfl)
    have hmf2 : st2.maxFails = st.maxFails := (config_fields _ _ hcfg2).2.2.2.2.1
    have hnd : ¬ (st2.maxFails < getFails st2 sid) := by
      have := hfb sid hsidlt
      rw [hmf2, h21]
      omega
    rw [if_neg hnd, if_neg (show ¬ (0 < st.retryLimit ∧ st.retryLimit ≤ (a : Int))
      by intro hcon; omega)]
    set st3 := setFails st2 sid ((getFails st2 sid + 1) % u32) with hst3
    have hcfg3 : config st3 = config st := by
      rw [hst3]
      exact (config_updSrv st2 sid _).trans hcfg2
    obtain ⟨-, -, -, hrl3, hmf3, hmo3, -⟩ := config_fields _ _ hcfg3
    have hsrv3 : st3.servers = st.servers := by
      rw [hst3, setFails_servers, hst2, setLastUsage_servers, hst1]
    have hns3 : st3.lastNS = (st.lastNS + 1) % st.servers.length := by
      rw [hst3, setFails_lastNS, hst2, setLastUsage_lastNS, hst1]
    have hhl3 : st3.heap.length = st.heap.length := by
      rw [hst3, setFails_heap_length, hst2, setLastUsage_heap_length, hst1]
    have hfb2 : getFails st sid ≤ st.maxFails := by
      have := hfb sid hsidlt
      omega
    have hlt2 : sid < st2.heap.length := by
      rw [hst2, setLastUsage_heap_length, hst1]
      exact hsidlt
    have hfs3 : getFails st3 sid = getFails st sid + 1 := by
      rw [hst3, getFails_setFails_self st2 sid _ hlt2, h21]
      exact Nat.mod_eq_of_lt (by omega)
    apply ih st3 (a + 1) (sel + 1) []
    · rw [hrl3]; exact hrl
    · rw [hmo3]; exact hm
    · rw [hns3, hsrv3]; exact Nat.mod_lt _ (by omega)
    · rw [hsrv3]; exact hsmall
    · rw [hmf3]; exact hmf
    · rw [hsrv3, hhl3]; exact hvalid
    · intro j hj
      rw [hhl3] at hj
      rw [hmf3]
      by_cases hjs : j = sid
      · subst hjs
        rw [hfs3]
        have := hfb sid hj
        omega
      · rw [hst3, getFails_setFails_ne st2 sid j _ hjs, h21]
        have := hfb j hj
        omega

/-- **C6.** With every attempt failing transiently (rotate strategy, a valid
cursor, and enough failure headroom that no server is quarantined
mid-run), part 1: for every retry limit `N > 0` the lookup returns
`ErrRetryLimit` after *exactly* `N` attempts (the check `attempts >= limit`
runs after each failed attempt, the counter starting at 1); part 2: when the
retry limit is 0, (a) no terminated lookup ever returns `ErrRetryLimit`
(this holds for arbitrary outcomes and states), and (b) the loop is still
running after any number `B` of attempts permitted by the failure headroom —
the attempt count is not bounded by the retry mechanism. -/
theorem claim6_retry_limit (env : Env) (st : ResolverState) (N : Nat)
    (hfail : ∀ a, env.outcomes a = QueryOutcome.failure)
    (hm : st.mode = modeRotate) (hcur : st.lastNS < st.servers.length)
    (hsmall : st.servers.length < u32) (hmf : st.maxFails + 1 < u32)
    (hvalid : ∀ id ∈ st.servers, id < st.heap.length) :
    (st.retryLimit = (N : Int) → 0 < N →
      (∀ j, j < st.heap.length → getFails st j + N ≤ st.maxFails + 2) →
      ∀ fuel, N ≤ fuel →
        ∃ stF, lookupGo env fuel st =
          RunResult.done ⟨some Err.retryLimit, stF, [], N⟩) ∧
    (st.retryLimit ≤ 0 →
      (∀ fuel out, lookupGo env fuel st = RunResult.done out →
        out.err ≠ some Err.retryLimit) ∧
      (∀ B, (∀ j, j < st.heap.length → getFails st j + B ≤ st.maxFails + 1) →
        lookupGo env B st = RunResult.fuelOut)) := by
  constructor
  · intro hrl hN hfb fuel hfuel
    obtain ⟨stF, hF⟩ := lookupLoop_all_fail_exact env N hfail hN N hN st 1 0 []
      hrl (by omega) hm hcur hsmall hmf hvalid hfb fuel hfuel
    rw [show 0 + N = N from by omega] at hF
    exact ⟨stF, hF⟩
  · intro hrl
    constructor
    · intro fuel out h
      exact lookupLoop_no_retryLimit env fuel 1 0 [] st out hrl h
    · intro B hfb
      exact lookupLoop_all_fail_fuelOut env hfail B st 1 0 [] hrl hm hcur hsmall
        hmf hvalid hfb

/-- Witness for C6: with retry limit 2 and all-transient failures the
concrete lookup returns `ErrRetryLimit` after exactly 2 attempts, and with
retry limit 0 the same pool is still looping after 10 attempts. -/
theorem claim6_retry_limit_witness :
    (∃ stF, lookupGo envAllFail 2 exStRetry2 =
      RunResult.done ⟨some Err.retryLimit, stF, [], 2⟩) ∧
    lookupGo envAllFail 10 exStRetry0 = RunResult.fuelOut := by
  constructor
  · exact (claim6_retry_limit envAllFail exStRetry2 2 (fun _ => rfl) rfl (by decide)
      (by norm_num [u32, exStRetry2]) (by norm_num [u32, exStRetry2])
      (by decide)).1 rfl (by omega) (by decide) 2 (le_refl 2)
  · exact ((claim6_retry_limit envAllFail exStRetry0 0 (fun _ => rfl) rfl (by decide)
      (by norm_num [u32, exStRetry0]) (by norm_num [u32, exStRetry0])
      (by decide)).2 (by decide)).2 10 (by decide)

theorem disableServer_singleton (st : ResolverState) (sid : Nat)
    (h : st.servers = [sid]) :
    disableServer st sid =
      { st with servers := [], badServers := st.badServers ++ [sid],
                lastNS := 0 } := by
  unfold disableServer
  rw [h]
  simp [List.findIdx?_cons]

theorem getFails_disableServer (st : ResolverState) (id j : Nat) :
    getFails (disableServer st id) j = getFails st j := by
  unfold getFails
  rw [disableServer_heap]

theorem setLastUsage_badServers (st : ResolverState) (id : Nat) (t : Int) :
    (setLastUsage st id t).badServers = st.badServers := updSrv_badServers st id _

theorem setFails_badServers (st : ResolverState) (id f : Nat) :
    (setFails st id f).badServers = st.badServers := updSrv_badServers st id _

theorem lookupLoop_one_server_quarantine (env : Env)
    (hfail : ∀ a, env.outcomes a = QueryOutcome.failure) :
    ∀ (k : Nat) (st : ResolverState) (a sel : Nat) (res : List String) (sid : Nat),
      st.retryLimit ≤ 0 → st.mode = modeRotate → st.servers = [sid] →
      st.lastNS = 0 → sid < st.heap.length → st.maxFails + 1 < u32 →
      getFails st sid + k = st.maxFails + 1 →
      ∀ fuel, k + 2 ≤ fuel →
        ∃ stF, lookupLoop env fuel a sel res st =
          RunResult.done ⟨some Err.serverListEmpty, stF, [], sel + k + 1⟩ ∧
          stF.servers = [] ∧ stF.badServers = st.badServers ++ [sid] ∧
          getFails stF sid = st.maxFails + 1 := by
  intro k
  induction k with
  | zero =>
    intro st a sel res sid hrl hm hsrv hns hsidlt hmf hk fuel hfuel
    obtain ⟨f, rfl⟩ : ∃ f, fuel = f + 1 := ⟨fuel - 1, by omega⟩
    have hcur : st.lastNS < st.servers.length := by rw [hsrv, hns]; simp
    have hsmall : st.servers.length < u32 := by rw [hsrv]; simp [u32]
    rw [lookupLoop_fail_step env st a sel res f hm hcur hsmall (hfail a)]
    dsimp only
    have hgetd : st.servers.getD st.lastNS 0 = sid := by
      rw [hsrv, hns]
      rfl
    have hmod : (st.lastNS + 1) % st.servers.length = 0 := by
      rw [hsrv, hns]
      simp
    rw [hgetd, hmod]
    set st2 := setLastUsage { st with lastNS := 0 } sid (env.times a) with hst2
    have h21 : ∀ j, getFails st2 j = getFails st j := fun j =>
      getFails_setLastUsage { st with lastNS := 0 } sid j _
    have hmf2 : st2.maxFails = st.maxFails := by
      rw [hst2]
      exact ((config_fields _ _ ((config_updSrv _ sid _).trans
        (by exact rfl))).2.2.2.2.1)
    have hsrv2 : st2.servers = [sid] := by
      rw [hst2, setLastUsage_servers]
      exact hsrv
    rw [if_pos (show st2.maxFails < getFails st2 sid by rw [hmf2, h21]; omega)]
    rw [disableServer_singleton st2 sid hsrv2]
    rw [if_neg (show ¬ (0 < st.retryLimit ∧ st.retryLimit ≤ (a : Int)) by
      intro hcon; omega)]
    obtain ⟨g, rfl⟩ : ∃ g, f = g + 1 := ⟨f - 1, by omega⟩
    rw [lookupLoop, getServer_empty _ (env.times (a + 1)) (env.rands (a + 1)) rfl]
    refine ⟨_, rfl, rfl, ?_, ?_⟩
    · have hb2 : st2.badServers = st.badServers := by
        rw [hst2, setLastUsage_badServers]
      exact congrArg (fun l => l ++ [sid]) hb2
    · exact (h21 sid).trans (by omega)
  | succ m ih =>
    intro st a sel res sid hrl hm hsrv hns hsidlt hmf hk fuel hfuel
    obtain ⟨f, rfl⟩ : ∃ f, fuel = f + 1 := ⟨fuel - 1, by omega⟩
    have hcur : st.lastNS < st.servers.length := by rw [hsrv, hns]; simp
    have hsmall : st.servers.length < u32 := by rw [hsrv]; simp [u32]
    rw [lookupLoop_fail_step env st a sel res f hm hcur hsmall (hfail a)]
    dsimp only
    have hgetd : st.servers.getD st.lastNS 0 = sid := by
      rw [hsrv, hns]
      rfl
    have hmod : (st.lastNS + 1) % st.servers.length = 0 := by
      rw [hsrv, hns]
      simp
    rw [hgetd, hmod]
    set st2 := setLastUsage { st with lastNS := 0 } sid (env.times a) with hst2
    have h21 : ∀ j, getFails st2 j = getFails st j := fun j =>
      getFails_setLastUsage { st with lastNS := 0 } sid j _
    have hcfg2 : config st2 = config st := by
      rw [hst2]
      exact (config_updSrv _ sid _).trans (by exact rfl)
    have hmf2 : st2.maxFails = st.maxFails := (config_fields _ _ hcfg2).2.2.2.2.1
    rw [if_neg (show ¬ (st2.maxFails < getFails st2 sid) by
      rw [hmf2, h21]; omega)]
    rw [if_neg (show ¬ (0 < st.retryLimit ∧ st.retryLimit ≤ (a : Int)) by
      intro hcon; omega)]
    set st3 := setFails st2 sid ((getFails st2 sid + 1) % u32) with hst3
    have hcfg3 : config st3 = config st := by
      rw [hst3]
      exact (config_updSrv _ sid _).trans hcfg2
    have hlt2 : sid < st2.heap.length := by
      rw [hst2, setLastUsage_heap_length]
      exact hsidlt
    have hfs3 : getFails st3 sid = getFails st sid + 1 := by
      rw [hst3, getFails_setFails_self st2 sid _ hlt2, h21]
      exact Nat.mod_eq_of_lt (by omega)
    obtain ⟨stF, hF, hF1, hF2, hF3⟩ := ih st3 (a + 1) (sel + 1) [] sid
      (by rw [(config_fields _ _ hcfg3).2.2.2.1]; exact hrl)
      (by rw [(config_fields _ _ hcfg3).2.2.2.2.2.1]; exact hm)
      (by rw [hst3, setFails_servers, hst2, setLastUsage_servers]; exact hsrv)
      (by rw [hst3, setFails_lastNS, hst2, setLastUsage_lastNS])
      (by rw [hst3, setFails_heap_length, hst2, setLastUsage_heap_length]
          exact hsidlt)
      (by rw [(config_fields _ _ hcfg3).2.2.2.2.1]; exact hmf)
      (by rw [hfs3, (config_fields _ _ hcfg3).2.2.2.2.1]; omega)
      f (by omega)
    refine ⟨stF, ?_, hF1, ?_, ?_⟩
    · rw [hF]
      have harith : sel + 1 + m + 1 = sel + (m + 1) + 1 := by omega
      rw [harith]
    · rw [hF2, hst3, setFails_badServers, hst2, setLastUsage_badServers]
    · rw [hF3, (config_fields _ _ hcfg3).2.2.2.2.1]

/-- **C3** counterexample: with `MaxFails = 0`, a server at 0 consecutive
failures suffers its first transient failure.  The claim's rule (increment,
then quarantine because the new count 1 exceeds 0) demands quarantine; the
code instead leaves the server active (`badServers` stays empty, `servers`
stays `[0]`) with `Fails = 1`, because it checks `Fails > MaxFails` on the
*pre-increment* value 0. -/
theorem claim3_counterexample :
    lookupGo envAllFail 1 exStThreshold =
      RunResult.done ⟨some Err.retryLimit,
        ⟨[⟨"8.8.8.8", 1, 7⟩], [0], [], 0, 0, 2, 1, 0, 0, 10, []⟩, [], 1⟩ ∧
    exStThreshold.maxFails = 0 ∧ getFails exStThreshold 0 = 0 :=
  ⟨rfl, rfl, rfl⟩

/-- **C3** amended: on a transient failure the code checks the
*pre-increment* counter: if `Fails > MaxFails` already held before this
failure, the server is quarantined (moved to `badServers`) *without*
incrementing; otherwise `Fails` is incremented and the server stays active.
Consequently a server starting at 0 consecutive failures is quarantined on
its `(MaxFails + 2)`-th consecutive transient failure — after which the
single-server pool is empty — not on the `(MaxFails + 1)`-th. -/
theorem claim3_amended (env : Env) (st : ResolverState) (fuel : Nat)
    (sid : Nat) (st2 : ResolverState)
    (hm : st.mode = modeRotate) (hcur : st.lastNS < st.servers.length)
    (hsmall : st.servers.length < u32)
    (hfail1 : env.outcomes 1 = QueryOutcome.failure)
    (hstop : st.retryLimit = 1) (hf : 0 < fuel)
    (hsid : sid = st.servers.getD st.lastNS 0)
    (hst2 : st2 = setLastUsage
      { st with lastNS := (st.lastNS + 1) % st.servers.length } sid (env.times 1)) :
    (getFails st sid ≤ st.maxFails →
      lookupGo env fuel st = RunResult.done ⟨some Err.retryLimit,
        setFails st2 sid ((getFails st sid + 1) % u32), [], 1⟩ ∧
      (setFails st2 sid ((getFails st sid + 1) % u32)).servers = st.servers ∧
      (setFails st2 sid ((getFails st sid + 1) % u32)).badServers = st.badServers) ∧
    (st.maxFails < getFails st sid →
      lookupGo env fuel st = RunResult.done ⟨some Err.retryLimit,
        disableServer st2 sid, [], 1⟩ ∧
      getFails (disableServer st2 sid) sid = getFails st sid) ∧
    (∀ (env2 : Env), (∀ a, env2.outcomes a = QueryOutcome.failure) →
      ∀ (stq : ResolverState) (sidq : Nat), stq.retryLimit ≤ 0 →
        stq.mode = modeRotate → stq.servers = [sidq] → stq.lastNS = 0 →
        sidq < stq.heap.length → stq.maxFails + 1 < u32 →
        getFails stq sidq = 0 →
        ∀ fuelq, stq.maxFails + 3 ≤ fuelq →
          ∃ stF, lookupGo env2 fuelq stq = RunResult.done
            ⟨some Err.serverListEmpty, stF, [], stq.maxFails + 2⟩ ∧
            stF.servers = [] ∧ stF.badServers = stq.badServers ++ [sidq] ∧
            getFails stF sidq = stq.maxFails + 1) := by
  obtain ⟨f, rfl⟩ : ∃ f, fuel = f + 1 := ⟨fuel - 1, by omega⟩
  have hstep := lookupLoop_fail_step env st 1 0 [] f hm hcur hsmall hfail1
  have h21 : ∀ j, getFails st2 j = getFails st j := fun j => by
    rw [hst2]
    exact getFails_setLastUsage _ sid j _
  have hcfg2 : config st2 = config st := by
    rw [hst2]
    exact (config_updSrv _ sid _).trans (by exact rfl)
  have hmf2 : st2.maxFails = st.maxFails := (config_fields _ _ hcfg2).2.2.2.2.1
  refine ⟨?_, ?_, ?_⟩
  · intro hpre
    have hrun : lookupGo env (f + 1) st = RunResult.done ⟨some Err.retryLimit,
        setFails st2 sid ((getFails st sid + 1) % u32), [], 1⟩ := by
      show lookupLoop env (f + 1) 1 0 [] st = _
      rw [hstep]
      dsimp only
      rw [← hsid, ← hst2]
      rw [if_neg (show ¬ (st2.maxFails < getFails st2 sid) by
        rw [hmf2, h21]; omega)]
      rw [if_pos (show 0 < st.retryLimit ∧ st.retryLimit ≤ ((1 : Nat) : Int) by
        rw [hstop]; exact ⟨by norm_num, by norm_num⟩)]
      rw [h21]
    refine ⟨hrun, ?_, ?_⟩
    · rw [setFails_servers, hst2, setLastUsage_servers]
    · rw [setFails_badServers, hst2, setLastUsage_badServers]
  · intro hpre
    have hrun : lookupGo env (f + 1) st = RunResult.done ⟨some Err.retryLimit,
        disableServer st2 sid, [], 1⟩ := by
      show lookupLoop env (f + 1) 1 0 [] st = _
      rw [hstep]
      dsimp only
      rw [← hsid, ← hst2]
      rw [if_pos (show st2.maxFails < getFails st2 sid by
        rw [hmf2, h21]; omega)]
      rw [if_pos (show 0 < st.retryLimit ∧ st.retryLimit ≤ ((1 : Nat) : Int) by
        rw [hstop]; exact ⟨by norm_num, by norm_num⟩)]
    exact ⟨hrun, (getFails_disableServer st2 sid sid).trans (h21 sid)⟩
  · intro env2 hfail2 stq sidq hrlq hmq hsrvq hnsq hltq hmfq hq0 fuelq hfq
    obtain ⟨stF, hF, hF1, hF2, hF3⟩ :=
      lookupLoop_one_server_quarantine env2 hfail2 (stq.maxFails + 1) stq 1 0 []
        sidq hrlq hmq hsrvq hnsq hltq hmfq (by omega) fuelq (by omega)
    rw [show 0 + (stq.maxFails + 1) + 1 = stq.maxFails + 2 from by omega] at hF
    exact ⟨stF, hF, hF1, hF2, hF3⟩

/-- Witness for the amended C3: a first transient failure at `Fails = 0`,
`MaxFails = 30` increments to 1 without quarantine; and with `MaxFails = 0`
the single server is quarantined on the 2nd (= MaxFails+2) consecutive
transient failure, after which the pool is empty. -/
theorem claim3_amended_witness :
    (lookupGo envAllFail 1 exStEmptyCache = RunResult.done ⟨some Err.retryLimit,
      setFails (setLastUsage { exStEmptyCache with lastNS := (0 + 1) % 1 } 0
        (envAllFail.times 1)) 0 ((getFails exStEmptyCache 0 + 1) % u32), [], 1⟩) ∧
    (∃ stF, lookupGo envAllFail 3 exStOneServer = RunResult.done
      ⟨some Err.serverListEmpty, stF, [], exStOneServer.maxFails + 2⟩ ∧
      stF.servers = [] ∧ stF.badServers = exStOneServer.badServers ++ [0] ∧
      getFails stF 0 = exStOneServer.maxFails + 1) := by
  have h := claim3_amended envAllFail exStEmptyCache 1 0
    (setLastUsage { exStEmptyCache with lastNS := (0 + 1) % 1 } 0
      (envAllFail.times 1))
    rfl (by decide) (by decide) rfl rfl (by decide) rfl ?hst2
  case hst2 => rfl
  exact ⟨(h.1 (by decide)).1,
    h.2.2 envAllFail (fun _ => rfl) exStOneServer 0 (by decide) rfl rfl rfl
      (by decide) (by decide) rfl 3 (by decide)⟩

/-- **C10.** With a positive cache limit, when the lookup under a
`ResolveHost` miss terminates with `ErrRetryLimit` or `ErrNoSuchHost` (a
non-pool error), the empty result is still written to the cache for that
host, so a subsequent `ResolveHost` of the same host — under *any* external
world and fuel — is a cache hit returning the empty address list with a
`nil` error, zero selections, and an unchanged state. -/
theorem claim10_error_result_cached (env : Env) (fuel : Nat)
    (st : ResolverState) (host : String) (nowIns : Int) (out : LookupOut)
    (hmiss : cacheFind st.cache host = none) (hlim : 0 < st.cacheLimit)
    (hrun : lookupGo env fuel st = RunResult.done out)
    (herr : out.err = some Err.retryLimit ∨ out.err = some Err.noSuchHost) :
    ∃ stF, resolveHost env fuel st host nowIns =
        RunResult.done ⟨out.err, stF, [], out.selections⟩ ∧
      cacheFind stF.cache host = some ⟨[], nowIns⟩ ∧
      ∀ (env2 : Env) (fuel2 : Nat) (now2 : Int),
        resolveHost env2 fuel2 stF host now2 =
          RunResult.done ⟨none, stF, [], 0⟩ := by
  have hres : out.result = [] :=
    lookupLoop_err_result env fuel 1 0 [] st out hrun herr
  obtain ⟨-, hcl, -, -, -, -, -⟩ :=
    config_fields _ _ (config_lookupLoop env fuel 1 0 [] st out hrun)
  have hlim1 : 0 < out.state.cacheLimit := by rw [hcl]; exact hlim
  set st2 : ResolverState :=
    if out.state.cacheLimit - 1 < (out.state.cache.length : Int) then
      clearCache nowIns out.state
    else out.state with hst2
  have hcl2 : st2.cacheLimit = st.cacheLimit := by
    rw [hst2]
    split
    · exact hcl
    · exact hcl
  set stF : ResolverState :=
    { st2 with cache := cacheInsert st2.cache host ⟨out.result, nowIns⟩ } with hstF
  have hfind : cacheFind stF.cache host = some ⟨[], nowIns⟩ := by
    rw [hstF]
    show cacheFind (cacheInsert st2.cache host ⟨out.result, nowIns⟩) host = _
    rw [cacheFind_cacheInsert_self, hres]
  refine ⟨stF, ?_, hfind, ?_⟩
  · unfold resolveHost
    rw [hmiss]
    dsimp only
    unfold resolveHost.resolveHostMiss
    rw [hrun]
    dsimp only
    rw [if_pos hlim1, ← hst2, ← hstF, hres]
  · intro env2 fuel2 now2
    unfold resolveHost
    rw [hfind]
    dsimp only
    rw [if_pos (show 0 < stF.cacheLimit by
      rw [hstF]
      show st2.cacheLimit > 0
      rw [hcl2]
      exact hlim)]

/-- Witness for C10: a failed concrete `ResolveHost` run caches `("h", [])`;
the follow-up `ResolveHost` (different world, fuel) is a pure hit. -/
theorem claim10_error_result_cached_witness :
    ∃ stF, resolveHost envAllFail 1 exStEmptyCache "h" 40 =
        RunResult.done ⟨some Err.retryLimit, stF, [], 1⟩ ∧
      cacheFind stF.cache "h" = some ⟨[], 40⟩ ∧
      resolveHost envAllNotFound 2 stF "h" 77 = RunResult.done ⟨none, stF, [], 0⟩ := by
  obtain ⟨stF, h1, h2, h3⟩ := claim10_error_result_cached envAllFail 1
    exStEmptyCache "h" 40 exLookupOutFail rfl (by decide) rfl (Or.inl rfl)
  exact ⟨stF, h1, h2, h3 envAllNotFound 2 77⟩

end GoResolver
